import Mathlib

/-
Shallow embedding of the `New` instance-factory variants of the kofifus/New
repository.

The repository contains four embeddable revisions of the same routine:
  * `NewNJ`  — the composed-key variant (src/new.js top, src/unnamed/part_003):
               `header = Object.create(this.prototype)` (resp. `{}` +
               `setPrototypeOf`), `copyProps(header, this.call(header, ...args))`,
               then merging of the reserved `composed` property and deleting it.
  * `NewRB`  — the README boilerplate variant (the `## Code ##` block of
               src/README.md, duplicated inside src/new.js): validation,
               `setPrototypeOf`, `ctor` with abort-on-`false`, unconditional
               `delete header.ctor`, no composition.
  * `NewP0`  — src/unnamed/part_000: validation, `setPrototypeOf`, the ctor's
               return value is the composition data, `delete header.ctor` only
               inside `if (ctor)`, then the compose loop.
  * `NewP1`  — src/unnamed/part_001: `isDict` validation, `header = this()`,
               `composed = ctor.call(header, ...args)`, compose loop guarded
               by `isDict` checks.

Modelling decisions (uniform across the variants):
  * Plain objects live in a heap `St` (`mem : Nat -> Obj`); object values are
    references `JsVal.refV r`.  This makes the in-place mutation performed by
    the factory (`setPrototypeOf`, `delete`, `defineProperty`) and the frame
    properties of the merge step expressible.
  * Function values are opaque: `JsVal.fnV f` with behaviour given by a
    function table `ftab : Nat -> List JsVal -> JsVal` passed to the factory.
    A call `ctor.call(receiver, ...args)` is modelled as `ftab f args`; the
    receiver and any closure side effects of user functions are outside the
    model (they touch closure-private state, not the objects the factory
    manipulates).  Getters are modelled as pure: reading an accessor property
    evaluates its getter on no arguments.
  * A blueprint is its identity (`id`, standing for the blueprint function's
    distinct `prototype` object) together with `body`, what invoking it
    returns: `BpRet.obj o` for a freshly created object literal (the normal
    case, `return { ... }`), `BpRet.val v` for a non-object result.
  * `Object.setPrototypeOf(header, this.prototype)` is modelled as tagging the
    object with the blueprint's `id`; `instanceof` is the corresponding tag
    check (`isInstanceOfTag`).  Blueprint prototype objects carry no own
    properties of their own, so property reads only consult own properties.
  * All own properties are enumerable (objects here are built from object
    literals and from copies of such properties), so `Object.keys` and
    `Object.getOwnPropertyNames` both enumerate `Obj.props`.
-/

namespace NewJs

/-- JavaScript values as needed by the factory: primitives, arrays (immutable
in the fragments modelled — the factory only reads them), `Date` (only used by
`part_001`'s `isDict`), opaque function values, and references to plain
objects in the heap. -/
inductive JsVal where
  | undefV
  | nullV
  | boolV (b : Bool)
  | numV (n : Int)
  | strV (s : String)
  | arrV (elems : List JsVal)
  | dateV
  | fnV (f : Nat)
  | refV (r : Nat)

/-- A property slot: a data property or a getter/setter accessor pair
(`Object.getOwnPropertyDescriptor` / `Object.defineProperty` copy these
wholesale). -/
inductive PropDesc where
  | dataP (v : JsVal)
  | accessorP (get set : JsVal)

/-- A plain object: the identity tag of the blueprint whose `prototype` object
is its prototype (`none` = plain `Object.prototype`), and its own properties
in insertion order. -/
structure Obj where
  protoTag : Option Nat
  props : List (String × PropDesc)

/-- The heap: a bump allocator index and the store. Unallocated references
read as the empty object (never relied upon). -/
structure St where
  next : Nat
  mem : Nat → Obj

def emptyObj : Obj := ⟨none, []⟩

def st0 : St := ⟨0, fun _ => emptyObj⟩

def alloc (s : St) (o : Obj) : St × Nat :=
  (⟨s.next + 1, fun r => if r = s.next then o else s.mem r⟩, s.next)

def hwrite (s : St) (r : Nat) (o : Obj) : St :=
  ⟨s.next, fun x => if x = r then o else s.mem x⟩

@[simp] theorem hwrite_mem_self (s : St) (r : Nat) (o : Obj) :
    (hwrite s r o).mem r = o := by simp [hwrite]

theorem hwrite_mem_ne (s : St) (r : Nat) (o : Obj) (x : Nat) (h : x ≠ r) :
    (hwrite s r o).mem x = s.mem x := by simp [hwrite, h]

@[simp] theorem hwrite_next (s : St) (r : Nat) (o : Obj) :
    (hwrite s r o).next = s.next := by simp [hwrite]

/-- JavaScript truthiness. -/
def truthy : JsVal → Bool
  | .undefV => false
  | .nullV => false
  | .boolV b => b
  | .numV n => n != 0
  | .strV s => s != ""
  | .arrV _ => true
  | .dateV => true
  | .fnV _ => true
  | .refV _ => true

/-- The `typeof` operator. -/
def jsTypeof : JsVal → String
  | .undefV => "undefined"
  | .nullV => "object"
  | .boolV _ => "boolean"
  | .numV _ => "number"
  | .strV _ => "string"
  | .arrV _ => "object"
  | .dateV => "object"
  | .fnV _ => "function"
  | .refV _ => "object"

/-- `Array.isArray`. -/
def isArrayV : JsVal → Bool
  | .arrV _ => true
  | _ => false

def isUndefV : JsVal → Bool
  | .undefV => true
  | _ => false

def isNullV : JsVal → Bool
  | .nullV => true
  | _ => false

/-- `d.constructor === Date` (for `part_001`'s `isDict`). -/
def ctorIsDateV : JsVal → Bool
  | .dateV => true
  | _ => false

/-- Strict equality against the literal `false` (`=== false`). -/
def strictEqFalse : JsVal → Bool
  | .boolV b => !b
  | _ => false

/-- First-match association lookup over own properties (JS own-property
lookup: keys of real objects are unique; first match is the property). -/
def propLookup : List (String × PropDesc) → String → Option PropDesc
  | [], _ => none
  | p :: rest, k => if p.1 = k then some p.2 else propLookup rest k

def getOwn (o : Obj) (k : String) : Option PropDesc :=
  propLookup o.props k

def hasOwn (o : Obj) (k : String) : Bool :=
  (getOwn o k).isSome

/-- `Object.defineProperty(o, k, d)`: replaces the slot in place when `k` is
already an own property, otherwise appends it (JS insertion order). -/
def defineProp (o : Obj) (k : String) (d : PropDesc) : Obj :=
  if hasOwn o k then
    { o with props := o.props.map (fun p => if p.1 = k then (k, d) else p) }
  else
    { o with props := o.props ++ [(k, d)] }

/-- `delete o[k]`. -/
def deleteProp (o : Obj) (k : String) : Obj :=
  { o with props := o.props.filter (fun p => p.1 ≠ k) }

/-- Plain assignment `o[k] = v`: overwrites a data property, invokes the
(opaque, effect-free in the model) setter of an accessor property, creates a
data property when absent. -/
def setPropVal (o : Obj) (k : String) (v : JsVal) : Obj :=
  match getOwn o k with
  | some (.dataP _) => defineProp o k (.dataP v)
  | some (.accessorP _ _) => o
  | none => { o with props := o.props ++ [(k, .dataP v)] }

/-- Property read `o[k]`: the value of a data property; an accessor invokes
its getter (modelled as pure) on no arguments; absent reads as `undefined`. -/
def readProp (ftab : Nat → List JsVal → JsVal) (o : Obj) (k : String) : JsVal :=
  match getOwn o k with
  | some (.dataP v) => v
  | some (.accessorP g _) =>
      match g with
      | .fnV f => ftab f []
      | _ => .undefV
  | none => .undefV

/-- Invoke a value as a function (only ever reached on `fnV` in the factory,
after the `typeof === 'function'` guards). -/
def callFn (ftab : Nat → List JsVal → JsVal) (v : JsVal) (args : List JsVal) : JsVal :=
  match v with
  | .fnV f => ftab f args
  | _ => .undefV

/-- Own properties of a value as seen by `Object.getOwnPropertyNames` /
`Object.getOwnPropertyDescriptor`: the heap object's properties for a
reference; index properties plus `length` for strings and arrays (the exotic
cases a merge could in principle be handed); nothing for other primitives. -/
def ownPropsOfVal (s : St) (v : JsVal) : List (String × PropDesc)
  := match v with
  | .refV r => (s.mem r).props
  | .strV str =>
      ((List.range str.length).map
        (fun i => (toString i, PropDesc.dataP (.strV (String.mk [str.data.getD i ' '])))))
        ++ [("length", PropDesc.dataP (.numV str.length))]
  | .arrV l =>
      ((List.range l.length).map
        (fun i => (toString i, PropDesc.dataP (l.getD i .undefV))))
        ++ [("length", PropDesc.dataP (.numV l.length))]
  | _ => []

def ownNames (s : St) (v : JsVal) : List String :=
  (ownPropsOfVal s v).map (fun p => p.1)

def getOwnDesc (s : St) (v : JsVal) (k : String) : Option PropDesc :=
  propLookup (ownPropsOfVal s v) k

/-- `Object.keys(v).length` (all modelled own properties of plain objects are
enumerable; for strings and arrays the index properties are the enumerable
ones). -/
def keysLen (s : St) (v : JsVal) : Nat :=
  match v with
  | .refV r => (s.mem r).props.length
  | .strV str => str.length
  | .arrV l => l.length
  | _ => 0

/-- What invoking a blueprint returns: a freshly created object literal (the
normal `return { ... }` case) or a bare non-object value. -/
inductive BpRet where
  | val (v : JsVal)
  | obj (o : Obj)

/-- A blueprint: its identity (standing for the function's distinct
`prototype` object) and its behaviour under invocation.  The ctor-based
variants invoke it on no arguments; the composed-key variant passes the
factory's arguments through. -/
structure Blueprint where
  id : Nat
  body : List JsVal → BpRet

/-- Evaluate a blueprint invocation, allocating the returned object literal. -/
def runBody (s : St) (bp : Blueprint) (args : List JsVal) : St × JsVal :=
  match bp.body args with
  | .val v => (s, v)
  | .obj o =>
      let p := alloc s o
      (p.1, .refV p.2)

/-- `Object.setPrototypeOf(v, blueprint.prototype)` — retags the object. -/
def setProto (s : St) (v : JsVal) (tag : Nat) : St :=
  match v with
  | .refV r => hwrite s r { s.mem r with protoTag := some tag }
  | _ => s

/-- The `instanceof` check as observable here: the object's prototype is the
blueprint's `prototype` object (unrelated blueprints have distinct
`prototype` objects, hence distinct tags). -/
def isInstanceOfTag (s : St) (v : JsVal) (bpId : Nat) : Bool :=
  match v with
  | .refV r => (s.mem r).protoTag = some bpId
  | _ => false

/-- The error conditions thrown by the variants, plus the implicit `TypeError`
a JS engine raises (e.g. `forEach` on a non-array). -/
inductive Err where
  | invalidInterface
  | invalidCtor
  | missingCtor
  | invalidComposition
  | typeError

/-- The interface validation shared by part_000, part_002 and the README
boilerplate:
`!header || typeof header!=='object' || Array.isArray(header) ||
 typeof header==='function' || Object.keys(header).length===0`. -/
def invalidInterfaceChk (s : St) (v : JsVal) : Bool :=
  !truthy v || (jsTypeof v != "object") || isArrayV v
    || (jsTypeof v == "function") || (keysLen s v == 0)

/-- The spec's words for a well-formed Descriptor, for comparison with the
source checks: "a non-null, non-array, non-callable, key-value mapping with
at least one entry" — i.e. a plain object with at least one own property. -/
def specValidDescriptor (s : St) (v : JsVal) : Bool :=
  match v with
  | .refV r => (s.mem r).props.length != 0
  | _ => false

/-- `isDict` of src/unnamed/part_001:
`d !== undefined && d !== null && typeof d === 'object' &&
 d.constructor !== Array && d.constructor !== Date`. -/
def isDict (d : JsVal) : Bool :=
  !isUndefV d && !isNullV d && (jsTypeof d == "object")
    && !isArrayV d && !ctorIsDateV d

/-- The inner loop of `copyProps` (src/new.js lines 4-9, src/unnamed/part_003
line 5) and of the compose loops of part_000 (line 29) and part_001 (line 27):
for each snapshotted property name, copy the source's own descriptor onto the
header unless the header already has the key.  The source descriptor is
re-read from the current state each step, as in the source. -/
def copyNamesSt (hr : Nat) (src : JsVal) : List String → St → St
  | [], s => s
  | k :: rest, s =>
      let hdr := s.mem hr
      let s1 :=
        if hasOwn hdr k then s
        else
          match getOwnDesc s src k with
          | some d => hwrite s hr (defineProp hdr k d)
          | none => s
      copyNamesSt hr src rest s1

/-- `copyProps(to, from)`: snapshot `Object.getOwnPropertyNames(from)`, then
copy each own descriptor not already present on `to`. -/
def copyPropsSt (s : St) (hr : Nat) (src : JsVal) : St :=
  copyNamesSt hr src (ownNames s src) s

/-- The per-target validity test of part_000's compose loop (line 27):
`!a || Array.isArray(a) || typeof a == 'function' || Object.keys(a).length===0`. -/
def composeChkP0 (s : St) (a : JsVal) : Bool :=
  !truthy a || isArrayV a || (jsTypeof a == "function") || (keysLen s a == 0)

/-- part_000's compose loop (lines 24-31): check each target, merge it into
the header; a failed check throws `'New - invalid composition'`. -/
def mergeTargetsP0 (hr : Nat) : List JsVal → St → Except Err St
  | [], s => .ok s
  | a :: rest, s =>
      if composeChkP0 s a then .error .invalidComposition
      else mergeTargetsP0 hr rest (copyPropsSt s hr a)

/-- part_001's compose loop (lines 24-28): each target must satisfy `isDict`. -/
def mergeTargetsP1 (hr : Nat) : List JsVal → St → Except Err St
  | [], s => .ok s
  | a :: rest, s =>
      if !isDict a then .error .invalidComposition
      else mergeTargetsP1 hr rest (copyPropsSt s hr a)

/-- The composed-key variant's compose loop (src/new.js line 19,
src/unnamed/part_003 line 14): `header.composed.forEach(props =>
copyProps(header, props))` — no validity checks; `getOwnPropertyNames` on
`null`/`undefined` raises a `TypeError`. -/
def mergeTargetsNJ (hr : Nat) : List JsVal → St → Except Err St
  | [], s => .ok s
  | t :: rest, s =>
      if isUndefV t || isNullV t then .error .typeError
      else mergeTargetsNJ hr rest (copyPropsSt s hr t)

/-- src/unnamed/part_000 (`BetterES6Classes`), `Function.prototype.New`:

    let inst=Object.create(this.prototype);
    let header=this.call(inst);                       -- no arguments
    if (...) throw 'New - invalid interface';
    Object.setPrototypeOf(header, this.prototype);
    let ctor=header.ctor, composed;
    if (ctor && typeof ctor!=='function') throw 'New - invalid ctor';
    if (args.length>0 && !ctor) throw('New - missing ctor');
    if (ctor) -- composed=ctor.call(inst, ...args); delete header.ctor;
    if (composed) -- normalize, check and merge each target
    return header;

The receiver `inst` is opaque in the model (closure state only). -/
def NewP0 (ftab : Nat → List JsVal → JsVal) (s0 : St) (bp : Blueprint)
    (args : List JsVal) : Except Err (St × JsVal) :=
  let p := runBody s0 bp []
  let s1 := p.1
  let hv := p.2
  if invalidInterfaceChk s1 hv then .error .invalidInterface
  else
    let s2 := setProto s1 hv bp.id
    match hv with
    | .refV hr =>
        let ctor := readProp ftab (s2.mem hr) "ctor"
        if truthy ctor && (jsTypeof ctor != "function") then .error .invalidCtor
        else if args.length > 0 && !truthy ctor then .error .missingCtor
        else
          let q :=
            if truthy ctor then
              (callFn ftab ctor args, hwrite s2 hr (deleteProp (s2.mem hr) "ctor"))
            else (JsVal.undefV, s2)
          let composed := q.1
          let s3 := q.2
          if truthy composed then
            let composedArr :=
              if !isArrayV composed && (jsTypeof composed != "function") then
                JsVal.arrV [composed]
              else composed
            match composedArr with
            | .arrV ts => (mergeTargetsP0 hr ts s3).map (fun s4 => (s4, JsVal.refV hr))
            | _ => .error .typeError   -- composed.forEach on a function value
          else .ok (s3, .refV hr)
    | _ => .error .invalidInterface    -- unreachable: the check admits only object refs

/-- src/unnamed/part_001, `Function.prototype.New`: as part_000 but the
blueprint is invoked bare (`this()`), validation is `isDict`, the ctor is
called with `header` as receiver, and composition normalization/checks use
`isDict` and `composed.constructor!==Array`. -/
def NewP1 (ftab : Nat → List JsVal → JsVal) (s0 : St) (bp : Blueprint)
    (args : List JsVal) : Except Err (St × JsVal) :=
  let p := runBody s0 bp []
  let s1 := p.1
  let hv := p.2
  if !isDict hv then .error .invalidInterface
  else
    let s2 := setProto s1 hv bp.id
    match hv with
    | .refV hr =>
        let ctor := readProp ftab (s2.mem hr) "ctor"
        if truthy ctor && (jsTypeof ctor != "function") then .error .invalidCtor
        else if args.length > 0 && !truthy ctor then .error .missingCtor
        else
          let q :=
            if truthy ctor then
              (callFn ftab ctor args, hwrite s2 hr (deleteProp (s2.mem hr) "ctor"))
            else (JsVal.undefV, s2)
          let composed := q.1
          let s3 := q.2
          if truthy composed then
            let composedArr := if isDict composed then JsVal.arrV [composed] else composed
            match composedArr with
            | .arrV ts => (mergeTargetsP1 hr ts s3).map (fun s4 => (s4, JsVal.refV hr))
            | _ => .error .invalidComposition  -- composed.constructor !== Array
          else .ok (s3, .refV hr)
    | _ => .error .invalidInterface    -- unreachable: isDict admits only object refs

/-- The README boilerplate variant (src/README.md `## Code ##`, duplicated in
src/new.js): validation and ctor resolution as part_000, but the ctor's
return value is the abort sentinel — `if (ctor && ctor.call(inst, ...args)
=== false) return undefined;` — and `delete header.ctor` runs
unconditionally.  No composition. -/
def NewRB (ftab : Nat → List JsVal → JsVal) (s0 : St) (bp : Blueprint)
    (args : List JsVal) : Except Err (St × JsVal) :=
  let p := runBody s0 bp []
  let s1 := p.1
  let hv := p.2
  if invalidInterfaceChk s1 hv then .error .invalidInterface
  else
    let s2 := setProto s1 hv bp.id
    match hv with
    | .refV hr =>
        let ctor := readProp ftab (s2.mem hr) "ctor"
        if truthy ctor && (jsTypeof ctor != "function") then .error .invalidCtor
        else if args.length > 0 && !truthy ctor then .error .missingCtor
        else if truthy ctor && strictEqFalse (callFn ftab ctor args) then
          .ok (s2, .undefV)
        else
          .ok (hwrite s2 hr (deleteProp (s2.mem hr) "ctor"), .refV hr)
    | _ => .error .invalidInterface    -- unreachable: the check admits only object refs

/-- Shared first phase of the composed-key variant (src/new.js lines 12-14,
src/unnamed/part_003 lines 8-9): allocate the empty header with the
blueprint's prototype, then invoke the blueprint **with the factory's
arguments** (`this.call(header, ...args)`). -/
def njSetup (s0 : St) (bp : Blueprint) (args : List JsVal) : St × Nat × JsVal :=
  let p := alloc s0 ⟨some bp.id, []⟩
  let q := runBody p.1 bp args
  (q.1, p.2, q.2)

/-- The header state after `copyProps(header, this.call(header, ...args))`:
the state and the header's reference. -/
def njAfterCopy (s0 : St) (bp : Blueprint) (args : List JsVal) : St × Nat :=
  let t := njSetup s0 bp args
  (copyPropsSt t.1 t.2.1 t.2.2, t.2.1)

/-- The composed-key variant (src/new.js lines 3-24, src/unnamed/part_003):

    let header={}; Object.setPrototypeOf(header, this.prototype);
    copyProps(header, this.call(header, ...args));
    if (header.composed) --
      if (!Array.isArray(header.composed)) header.composed=[header.composed];
      header.composed.forEach(props => copyProps(header, props));
      delete header.composed;
    return header;

Reads of `header.composed` go through `readProp` (data value, or pure getter
for an accessor property); the non-array rewrap is a plain assignment. -/
def NewNJ (ftab : Nat → List JsVal → JsVal) (s0 : St) (bp : Blueprint)
    (args : List JsVal) : Except Err (St × JsVal) :=
  let ret := (njSetup s0 bp args).2.2
  if isUndefV ret || isNullV ret then .error .typeError  -- copyProps from null/undefined
  else
    let p := njAfterCopy s0 bp args
    let s3 := p.1
    let hr := p.2
    let c0 := readProp ftab (s3.mem hr) "composed"
    if truthy c0 then
      let s4 :=
        if !isArrayV c0 then hwrite s3 hr (setPropVal (s3.mem hr) "composed" (.arrV [c0]))
        else s3
      match readProp ftab (s4.mem hr) "composed" with
      | .arrV ts =>
          (mergeTargetsNJ hr ts s4).map
            (fun s5 => (hwrite s5 hr (deleteProp (s5.mem hr) "composed"), JsVal.refV hr))
      | _ => .error .typeError   -- forEach on a non-array
    else .ok (s3, .refV hr)

/-- First-defined choice between two optional property slots (specification
side of the merge's first-writer-wins contract). -/
def firstSome (a b : Option PropDesc) : Option PropDesc :=
  match a with
  | some d => some d
  | none => b

/-- The property slot the composition sequence contributes for key `k`: the
earliest target in the sequence that has an own property `k` wins. -/
def firstContrib (s : St) (ts : List JsVal) (k : String) : Option PropDesc :=
  match ts with
  | [] => none
  | t :: rest => firstSome (propLookup (ownPropsOfVal s t) k) (firstContrib s rest k)

/-- Observation: the numeric value of the instance's own data property `k`,
when the factory returned an instance. -/
def resultOwnNum (e : Except Err (St × JsVal)) (k : String) : Option Int :=
  match e with
  | .ok (s, .refV r) =>
      match getOwn (s.mem r) k with
      | some (.dataP (.numV n)) => some n
      | _ => none
  | _ => none

/-- A function table on which every call returns `undefined`. -/
def ftab0 : Nat → List JsVal → JsVal := fun _ _ => .undefV

/-- Concrete inputs for the abort scenario: a blueprint whose descriptor has a
`ctor` (function 7) beside a method slot, and a table on which function 7
returns `false`. -/
def bpAbort : Blueprint :=
  ⟨1, fun _ => .obj ⟨none, [("value", .dataP (.fnV 3)), ("ctor", .dataP (.fnV 7))]⟩⟩

def ftabAbort : Nat → List JsVal → JsVal :=
  fun f _ => if f = 7 then .boolV false else .undefV

/-- Concrete inputs for the merge scenario: two pre-existing targets (refs 0
and 1; ref 0 carries an accessor `b`), a host with `a` and a `ctor` (function
5) returning both targets. -/
def stMerge : St :=
  ⟨2, fun r =>
    if r = 0 then ⟨none, [("a", .dataP (.numV 10)), ("b", .accessorP (.fnV 8) .undefV)]⟩
    else if r = 1 then ⟨none, [("b", .dataP (.numV 20)), ("c", .dataP (.numV 30))]⟩
    else emptyObj⟩

def ftabMerge : Nat → List JsVal → JsVal :=
  fun f _ => if f = 5 then .arrV [.refV 0, .refV 1] else .undefV

def bpMerge : Blueprint :=
  ⟨3, fun _ => .obj ⟨none, [("a", .dataP (.numV 1)), ("ctor", .dataP (.fnV 5))]⟩⟩

/-- A well-formed blueprint with no `ctor` entry. -/
def bpNoCtor : Blueprint :=
  ⟨9, fun _ => .obj ⟨none, [("m", .dataP (.fnV 1))]⟩⟩

/-- A ctor-less blueprint for the composed-key variant, which has no ctor
protocol at all. -/
def bpNoCtorNJ : Blueprint :=
  ⟨13, fun _ => .obj ⟨none, [("m", .dataP (.fnV 1))]⟩⟩

/-- A blueprint returning an empty object literal (not a valid Descriptor per
the spec's shape, yet accepted by part_001's `isDict`). -/
def bpEmptyDict : Blueprint := ⟨2, fun _ => .obj ⟨none, []⟩⟩

/-- A blueprint returning a bare number (an invalid Descriptor). -/
def bpNumRet : Blueprint := ⟨2, fun _ => .val (.numV 5)⟩

/-- A blueprint whose descriptor carries a falsy, non-callable `ctor` value
beside a method slot (the part_000 `delete` guard never fires for it). -/
def bpFalsyCtor : Blueprint :=
  ⟨3, fun _ => .obj ⟨none, [("m", .dataP (.fnV 1)), ("ctor", .dataP (.boolV false))]⟩⟩

/-- Concrete inputs for the amended `ctor`-stripping scenario: a host with an
invoked `ctor` (function 4) returning a single (non-array) pre-existing
target without an own `ctor`, exercising the wrap-into-a-sequence path. -/
def stStrip : St :=
  ⟨1, fun r => if r = 0 then ⟨none, [("x", .dataP (.numV 7))]⟩ else emptyObj⟩

def ftabStrip : Nat → List JsVal → JsVal :=
  fun f _ => if f = 4 then .refV 0 else .undefV

def bpStrip : Blueprint :=
  ⟨3, fun _ => .obj ⟨none, [("m", .dataP (.fnV 1)), ("ctor", .dataP (.fnV 4))]⟩⟩

/-- A simple well-formed blueprint for the identity-tag scenario. -/
def bpTag : Blueprint := ⟨11, fun _ => .obj ⟨none, [("m", .dataP (.fnV 1))]⟩⟩

/-- Two blueprints agreeing on a no-argument invocation but differing once
arguments are passed through: the composed-key variant distinguishes them. -/
def bpArgsA : Blueprint :=
  ⟨4, fun args => .obj ⟨none, [("a", .dataP (.numV args.length))]⟩⟩

def bpArgsB : Blueprint :=
  ⟨4, fun _ => .obj ⟨none, [("a", .dataP (.numV 0))]⟩⟩

/-- Two blueprints for the ctor-variant argument-routing witness: same
no-argument descriptor, different behaviour on arguments. -/
def bpRouteA : Blueprint :=
  ⟨5, fun args => if args.length = 0 then .obj ⟨none, [("m", .dataP (.fnV 1))]⟩
    else .val (.numV 1)⟩

def bpRouteB : Blueprint :=
  ⟨5, fun _ => .obj ⟨none, [("m", .dataP (.fnV 1))]⟩⟩

/-- A well-formed two-property blueprint with no `ctor`. -/
def bpPlain : Blueprint :=
  ⟨6, fun _ => .obj ⟨none, [("advance", .dataP (.fnV 1)), ("value", .dataP (.fnV 2))]⟩⟩

/-- Concrete inputs for the composed-key scenario: a descriptor declaring
`composed = `the pre-existing object 0. -/
def stComposed : St :=
  ⟨1, fun r => if r = 0 then ⟨none, [("x", .dataP (.numV 1))]⟩ else emptyObj⟩

def bpComposed : Blueprint :=
  ⟨7, fun _ => .obj ⟨none, [("composed", .dataP (.refV 0)), ("m", .dataP (.fnV 2))]⟩⟩

/-- Concrete inputs for the frame scenario: a pre-existing target (ref 0)
merged by a `ctor` (function 6) into the new instance. -/
def stFrame : St :=
  ⟨1, fun r => if r = 0 then ⟨none, [("y", .dataP (.numV 3))]⟩ else emptyObj⟩

def ftabFrame : Nat → List JsVal → JsVal :=
  fun f _ => if f = 6 then .arrV [.refV 0] else .undefV

def bpFrame : Blueprint :=
  ⟨8, fun _ => .obj ⟨none, [("m", .dataP (.fnV 1)), ("ctor", .dataP (.fnV 6))]⟩⟩

theorem firstSome_none_right (a : Option PropDesc) : firstSome a none = a := by
  cases a <;> rfl

theorem firstSome_assoc (a b c : Option PropDesc) :
    firstSome (firstSome a b) c = firstSome a (firstSome b c) := by
  cases a <;> rfl

theorem propLookup_append (l1 l2 : List (String × PropDesc)) (k : String) :
    propLookup (l1 ++ l2) k = firstSome (propLookup l1 k) (propLookup l2 k) := by
  induction l1 with
  | nil => rfl
  | cons p rest ih =>
      by_cases h : p.1 = k
      · simp [propLookup, h, firstSome]
      · simp [propLookup, h, ih]

theorem propLookup_eq_none_of_not_mem (l : List (String × PropDesc)) (k : String)
    (h : k ∉ l.map (fun p => p.1)) : propLookup l k = none := by
  induction l with
  | nil => rfl
  | cons p rest ih =>
      simp only [List.map_cons, List.mem_cons] at h
      push_neg at h
      have h1 : p.1 ≠ k := fun hk => h.1 hk.symm
      simp [propLookup, h1, ih h.2]

theorem propLookup_ne_nil_of_some (l : List (String × PropDesc)) (k : String)
    (d : PropDesc) (h : propLookup l k = some d) : l ≠ [] := by
  intro hnil
  rw [hnil] at h
  simp [propLookup] at h

theorem propLookup_map_replace (l : List (String × PropDesc)) (k : String) (d : PropDesc) :
    propLookup (l.map (fun p => if p.1 = k then (k, d) else p)) k
      = (propLookup l k).map (fun _ => d) := by
  induction l with
  | nil => rfl
  | cons p rest ih =>
      by_cases hp : p.1 = k
      · simp [propLookup, hp]
      · simp [propLookup, hp, ih]

theorem propLookup_map_replace_ne (l : List (String × PropDesc)) (k k' : String)
    (d : PropDesc) (h : k ≠ k') :
    propLookup (l.map (fun p => if p.1 = k' then (k', d) else p)) k = propLookup l k := by
  induction l with
  | nil => rfl
  | cons p rest ih =>
      by_cases hp : p.1 = k'
      · have hpk : p.1 ≠ k := by rw [hp]; exact Ne.symm h
        simp [propLookup, hp, hpk, Ne.symm h, ih]
      · simp only [List.map_cons, hp, if_false]
        by_cases hpk : p.1 = k
        · simp [propLookup, hpk]
        · simp [propLookup, hpk, ih]

theorem propLookup_filter_ne_self (l : List (String × PropDesc)) (k : String) :
    propLookup (l.filter (fun p => p.1 ≠ k)) k = none := by
  induction l with
  | nil => rfl
  | cons p rest ih =>
      by_cases hp : p.1 = k
      · simpa [List.filter_cons, hp] using ih
      · simpa [List.filter_cons, hp, propLookup] using ih

theorem propLookup_filter_ne_ne (l : List (String × PropDesc)) (k k' : String)
    (h : k ≠ k') :
    propLookup (l.filter (fun p => p.1 ≠ k')) k = propLookup l k := by
  induction l with
  | nil => rfl
  | cons p rest ih =>
      rw [List.filter_cons]
      by_cases hp : p.1 = k'
      · rw [if_neg (by simp [hp])]
        have hpk : p.1 ≠ k := by rw [hp]; exact Ne.symm h
        rw [ih]
        simp [propLookup, hpk]
      · rw [if_pos (by simp [hp])]
        by_cases hpk : p.1 = k
        · simp [propLookup, hpk]
        · simp only [propLookup, hpk, if_false]
          simpa [decide_not] using ih

theorem getOwn_eq_none_of_not_hasOwn (o : Obj) (k : String) (h : ¬ hasOwn o k = true) :
    getOwn o k = none := by
  unfold hasOwn at h
  exact Option.not_isSome_iff_eq_none.mp (by simpa using h)

theorem getOwn_defineProp_self (o : Obj) (k : String) (d : PropDesc) :
    getOwn (defineProp o k d) k = some d := by
  unfold defineProp
  by_cases h : hasOwn o k
  · have hsome : (getOwn o k).isSome = true := h
    rcases Option.isSome_iff_exists.mp hsome with ⟨d0, hd0⟩
    unfold getOwn at hd0 ⊢
    simp [h, propLookup_map_replace, hd0]
  · have hnone : getOwn o k = none := getOwn_eq_none_of_not_hasOwn o k h
    unfold getOwn at hnone ⊢
    simp [h, propLookup_append, hnone, propLookup, firstSome]

theorem getOwn_defineProp_ne (o : Obj) (k k' : String) (d : PropDesc) (h : k ≠ k') :
    getOwn (defineProp o k' d) k = getOwn o k := by
  unfold defineProp getOwn
  by_cases hh : hasOwn o k'
  · simp [hh, propLookup_map_replace_ne _ _ _ _ h]
  · have hk : propLookup [(k', d)] k = none := by
      simp [propLookup, Ne.symm h]
    simp [hh, propLookup_append, hk, firstSome_none_right]

theorem getOwn_deleteProp_self (o : Obj) (k : String) :
    getOwn (deleteProp o k) k = none := by
  unfold deleteProp getOwn
  exact propLookup_filter_ne_self o.props k

theorem getOwn_deleteProp_ne (o : Obj) (k k' : String) (h : k ≠ k') :
    getOwn (deleteProp o k') k = getOwn o k := by
  unfold deleteProp getOwn
  exact propLookup_filter_ne_ne o.props k k' h

theorem protoTag_defineProp (o : Obj) (k : String) (d : PropDesc) :
    (defineProp o k d).protoTag = o.protoTag := by
  unfold defineProp
  by_cases h : hasOwn o k <;> simp [h]

theorem protoTag_deleteProp (o : Obj) (k : String) :
    (deleteProp o k).protoTag = o.protoTag := rfl

theorem copyNamesSt_mem_ne (hr : Nat) (src : JsVal) (names : List String) :
    ∀ (s : St) (r : Nat), r ≠ hr → (copyNamesSt hr src names s).mem r = s.mem r := by
  induction names with
  | nil => intro s r _; rfl
  | cons k rest ih =>
      intro s r h
      show (copyNamesSt hr src rest _).mem r = s.mem r
      rw [ih _ r h]
      by_cases hh : hasOwn (s.mem hr) k
      · simp [hh]
      · simp only [hh, if_false]
        cases hd : getOwnDesc s src k with
        | some d => simp [hwrite_mem_ne _ _ _ _ h]
        | none => rfl

theorem copyNamesSt_next (hr : Nat) (src : JsVal) (names : List String) :
    ∀ (s : St), (copyNamesSt hr src names s).next = s.next := by
  induction names with
  | nil => intro s; rfl
  | cons k rest ih =>
      intro s
      show (copyNamesSt hr src rest _).next = s.next
      rw [ih]
      by_cases hh : hasOwn (s.mem hr) k
      · simp [hh]
      · simp only [hh, if_false]
        cases hd : getOwnDesc s src k with
        | some d => simp
        | none => rfl

theorem copyNamesSt_protoTag (hr : Nat) (src : JsVal) (names : List String) :
    ∀ (s : St), ((copyNamesSt hr src names s).mem hr).protoTag = ((s.mem hr)).protoTag := by
  induction names with
  | nil => intro s; rfl
  | cons k rest ih =>
      intro s
      show ((copyNamesSt hr src rest _).mem hr).protoTag = (s.mem hr).protoTag
      rw [ih]
      by_cases hh : hasOwn (s.mem hr) k
      · simp [hh]
      · simp only [hh, if_false]
        cases hd : getOwnDesc s src k with
        | some d => simp [protoTag_defineProp]
        | none => rfl

/-- Sources whose own properties are unaffected by writes to the header
reference: object references other than the header, and the string/array/
primitive exotic cases. -/
def stableSrc (hr : Nat) (src : JsVal) : Prop :=
  ∀ (s' : St) (o : Obj), ownPropsOfVal (hwrite s' hr o) src = ownPropsOfVal s' src

theorem stableSrc_refV (hr rt : Nat) (h : rt ≠ hr) : stableSrc hr (.refV rt) := by
  intro s' o
  simp [ownPropsOfVal, hwrite_mem_ne _ _ _ _ h]

/-- The inner copy loop, characterised: the final header binds `k` to the
header's own slot if it had one, else to the source's slot when `k` was among
the copied names. -/
theorem copyNamesSt_getOwn (hr : Nat) (src : JsVal) (hsrc : stableSrc hr src)
    (names : List String) :
    ∀ (s : St) (k : String),
      getOwn ((copyNamesSt hr src names s).mem hr) k
        = firstSome (getOwn (s.mem hr) k)
            (if k ∈ names then propLookup (ownPropsOfVal s src) k else none) := by
  induction names with
  | nil =>
      intro s k
      simp [copyNamesSt, firstSome_none_right]
  | cons k' rest ih =>
      intro s k
      show getOwn ((copyNamesSt hr src rest _).mem hr) k = _
      rw [ih]
      by_cases hh : hasOwn (s.mem hr) k'
      · simp only [hh, if_true]
        by_cases hk : k = k'
        · subst hk
          have hsome : (getOwn (s.mem hr) k).isSome = true := hh
          rcases Option.isSome_iff_exists.mp hsome with ⟨d0, hd0⟩
          simp [hd0, firstSome]
        · simp [List.mem_cons, hk]
      · simp only [hh, if_false]
        cases hd : getOwnDesc s src k' with
        | some d =>
            have hmem : (hwrite s hr (defineProp (s.mem hr) k' d)).mem hr
                = defineProp (s.mem hr) k' d := hwrite_mem_self _ _ _
            by_cases hk : k = k'
            · subst hk
              have h1 : getOwn (s.mem hr) k = none := getOwn_eq_none_of_not_hasOwn _ _ hh
              have h2 : propLookup (ownPropsOfVal s src) k = some d := hd
              simp [hmem, getOwn_defineProp_self, hsrc s (defineProp (s.mem hr) k d),
                h1, h2, firstSome]
            · simp [hmem, getOwn_defineProp_ne _ _ _ _ hk,
                hsrc s (defineProp (s.mem hr) k' d), List.mem_cons, hk]
        | none =>
            by_cases hk : k = k'
            · subst hk
              have h2 : propLookup (ownPropsOfVal s src) k = none := hd
              by_cases hm : k ∈ rest <;> simp [hm, h2]
            · simp [List.mem_cons, hk]

/-- `copyProps` characterised: first-writer-wins between the header's own
properties and the source's. -/
theorem copyPropsSt_getOwn (s : St) (hr : Nat) (src : JsVal) (hsrc : stableSrc hr src)
    (k : String) :
    getOwn ((copyPropsSt s hr src).mem hr) k
      = firstSome (getOwn (s.mem hr) k) (propLookup (ownPropsOfVal s src) k) := by
  unfold copyPropsSt
  rw [copyNamesSt_getOwn hr src hsrc (ownNames s src) s k]
  by_cases hm : k ∈ ownNames s src
  · simp [hm]
  · have : propLookup (ownPropsOfVal s src) k = none :=
      propLookup_eq_none_of_not_mem _ _ hm
    simp [hm, this]

theorem copyPropsSt_mem_ne (s : St) (hr : Nat) (src : JsVal) (r : Nat) (h : r ≠ hr) :
    (copyPropsSt s hr src).mem r = s.mem r :=
  copyNamesSt_mem_ne hr src (ownNames s src) s r h

theorem copyPropsSt_next (s : St) (hr : Nat) (src : JsVal) :
    (copyPropsSt s hr src).next = s.next :=
  copyNamesSt_next hr src (ownNames s src) s

theorem copyPropsSt_protoTag (s : St) (hr : Nat) (src : JsVal) :
    ((copyPropsSt s hr src).mem hr).protoTag = (s.mem hr).protoTag :=
  copyNamesSt_protoTag hr src (ownNames s src) s

theorem firstContrib_congr (k : String) : ∀ (ts : List JsVal) (s1 s2 : St),
    (∀ t ∈ ts, ownPropsOfVal s1 t = ownPropsOfVal s2 t) →
    firstContrib s1 ts k = firstContrib s2 ts k := by
  intro ts
  induction ts with
  | nil => intro s1 s2 _; rfl
  | cons t rest ih =>
      intro s1 s2 h
      unfold firstContrib
      rw [h t (List.mem_cons_self t rest), ih s1 s2 (fun t' ht' => h t' (List.mem_cons_of_mem t ht'))]

/-- part_000's compose loop, characterised on a list of valid object-reference
targets distinct from the header: it succeeds, the final header resolves each
key first-writer-wins (header first, then the earliest contributing target),
and no reference other than the header is written. -/
theorem mergeTargetsP0_ok (hr : Nat) (ts : List JsVal) :
    ∀ (s : St),
    (∀ t ∈ ts, ∃ rt, t = .refV rt ∧ rt ≠ hr ∧ (s.mem rt).props ≠ []) →
    ∃ s', mergeTargetsP0 hr ts s = .ok s' ∧
      (∀ k, getOwn (s'.mem hr) k
        = firstSome (getOwn (s.mem hr) k) (firstContrib s ts k)) ∧
      (∀ r, r ≠ hr → s'.mem r = s.mem r) ∧
      ((s'.mem hr)).protoTag = (s.mem hr).protoTag ∧ s'.next = s.next := by
  induction ts with
  | nil =>
      intro s _
      exact ⟨s, rfl, fun k => by simp [firstContrib, firstSome_none_right],
        fun r _ => rfl, rfl, rfl⟩
  | cons t rest ih =>
      intro s h
      rcases h t (List.mem_cons_self t rest) with ⟨rt, hteq, hrtne, hprops⟩
      subst hteq
      have hchk : composeChkP0 s (.refV rt) = false := by
        unfold composeChkP0
        have hlen : ((keysLen s (.refV rt)) == 0) = false := by
          rw [beq_eq_false_iff_ne]
          simpa [keysLen, List.length_eq_zero] using hprops
        simp [truthy, isArrayV, jsTypeof, hlen]
      have hstable : stableSrc hr (.refV rt) := stableSrc_refV hr rt hrtne
      have hrest : ∀ t' ∈ rest, ∃ rt', t' = .refV rt' ∧ rt' ≠ hr
          ∧ ((copyPropsSt s hr (.refV rt)).mem rt').props ≠ [] := by
        intro t' ht'
        rcases h t' (List.mem_cons_of_mem _ ht') with ⟨rt', ht'eq, hne', hp'⟩
        exact ⟨rt', ht'eq, hne', by rw [copyPropsSt_mem_ne s hr _ rt' hne']; exact hp'⟩
      rcases ih (copyPropsSt s hr (.refV rt)) hrest with
        ⟨s', hok, hchar, hframe, hproto, hnext⟩
      refine ⟨s', ?_, ?_, ?_, ?_, ?_⟩
      · show (if composeChkP0 s (.refV rt) = true then Except.error Err.invalidComposition
          else mergeTargetsP0 hr rest (copyPropsSt s hr (.refV rt))) = Except.ok s'
        rw [hchk]
        simpa using hok
      · intro k
        rw [hchar k, copyPropsSt_getOwn s hr (.refV rt) hstable k]
        have hcc : firstContrib (copyPropsSt s hr (.refV rt)) rest k
            = firstContrib s rest k := by
          apply firstContrib_congr
          intro t' ht'
          rcases hrest t' ht' with ⟨rt', ht'eq, hne', _⟩
          subst ht'eq
          simp [ownPropsOfVal, copyPropsSt_mem_ne s hr _ rt' hne']
        rw [hcc, firstSome_assoc]
        rfl
      · intro r hrne
        rw [hframe r hrne, copyPropsSt_mem_ne s hr _ r hrne]
      · rw [hproto, copyPropsSt_protoTag]
      · rw [hnext, copyPropsSt_next]

/-- The part_000 pipeline run end to end on a blueprint with a function-valued
`ctor` entry whose invocation yields a list of valid, pre-existing composition
targets: the factory succeeds with the freshly allocated header, whose
properties resolve host-first then earliest-target-first, with the `ctor`
entry deleted, and no other reference is written. -/
theorem newP0_run_with_compose
    (ftab : Nat → List JsVal → JsVal) (s0 : St) (bp : Blueprint) (args : List JsVal)
    (d0 : Obj) (f : Nat) (ts : List JsVal)
    (hbody : bp.body [] = .obj d0)
    (hctor : propLookup d0.props "ctor" = some (.dataP (.fnV f)))
    (hcomp : ftab f args = .arrV ts)
    (hts : ∀ t ∈ ts, ∃ rt, t = .refV rt ∧ rt ≠ s0.next ∧ (s0.mem rt).props ≠ []) :
    ∃ s', NewP0 ftab s0 bp args = .ok (s', .refV s0.next) ∧
      (∀ k, getOwn (s'.mem s0.next) k
        = firstSome (getOwn (deleteProp d0 "ctor") k) (firstContrib s0 ts k)) ∧
      (∀ r, r ≠ s0.next → s'.mem r = s0.mem r) ∧
      (s'.mem s0.next).protoTag = some bp.id := by
  have hne : d0.props ≠ [] := propLookup_ne_nil_of_some _ _ _ hctor
  have hlen : ((d0.props.length) == 0) = false := by
    rw [beq_eq_false_iff_ne]
    simpa [List.length_eq_zero] using hne
  have hNew : NewP0 ftab s0 bp args
      = (mergeTargetsP0 s0.next ts
          (hwrite (hwrite ⟨s0.next + 1, fun r => if r = s0.next then d0 else s0.mem r⟩
              s0.next ⟨some bp.id, d0.props⟩)
            s0.next (deleteProp ⟨some bp.id, d0.props⟩ "ctor"))).map
          (fun s4 => (s4, JsVal.refV s0.next)) := by
    simp only [NewP0, runBody, hbody, alloc]
    simp +decide [invalidInterfaceChk, truthy, jsTypeof, isArrayV, keysLen, hlen,
      setProto, readProp, getOwn, hwrite_mem_self, hctor, callFn, hcomp]
  have hts3 : ∀ t ∈ ts, ∃ rt, t = .refV rt ∧ rt ≠ s0.next ∧
      (((hwrite (hwrite ⟨s0.next + 1, fun r => if r = s0.next then d0 else s0.mem r⟩
              s0.next ⟨some bp.id, d0.props⟩)
            s0.next (deleteProp ⟨some bp.id, d0.props⟩ "ctor")).mem rt)).props ≠ [] := by
    intro t ht
    rcases hts t ht with ⟨rt, hteq, hne', hp⟩
    refine ⟨rt, hteq, hne', ?_⟩
    rw [hwrite_mem_ne _ _ _ _ hne', hwrite_mem_ne _ _ _ _ hne']
    simpa [hne'] using hp
  rcases mergeTargetsP0_ok s0.next ts _ hts3 with ⟨s4, hok, hchar, hframe, hproto, _⟩
  have hmem3 : ∀ r, r ≠ s0.next →
      ((hwrite (hwrite ⟨s0.next + 1, fun r => if r = s0.next then d0 else s0.mem r⟩
              s0.next ⟨some bp.id, d0.props⟩)
            s0.next (deleteProp ⟨some bp.id, d0.props⟩ "ctor")).mem r) = s0.mem r := by
    intro r hrne
    rw [hwrite_mem_ne _ _ _ _ hrne, hwrite_mem_ne _ _ _ _ hrne]
    simp [hrne]
  refine ⟨s4, ?_, ?_, ?_, ?_⟩
  · rw [hNew, hok]
    rfl
  · intro k
    rw [hchar k, hwrite_mem_self]
    have h2 : getOwn (deleteProp ⟨some bp.id, d0.props⟩ "ctor") k
        = getOwn (deleteProp d0 "ctor") k := by
      simp [deleteProp, getOwn]
    have h3 : firstContrib
        (hwrite (hwrite ⟨s0.next + 1, fun r => if r = s0.next then d0 else s0.mem r⟩
              s0.next ⟨some bp.id, d0.props⟩)
            s0.next (deleteProp ⟨some bp.id, d0.props⟩ "ctor")) ts k
        = firstContrib s0 ts k := by
      apply firstContrib_congr
      intro t ht
      rcases hts t ht with ⟨rt, hteq, hne', _⟩
      subst hteq
      simp only [ownPropsOfVal]
      rw [hmem3 rt hne']
    rw [h2, h3]
  · intro r hrne
    rw [hframe r hrne, hmem3 r hrne]
  · rw [hproto, hwrite_mem_self]
    simp [deleteProp]

theorem truthy_refV (r : Nat) : truthy (.refV r) = true := rfl

theorem truthy_fnV (f : Nat) : truthy (.fnV f) = true := rfl

theorem isArrayV_refV (r : Nat) : isArrayV (.refV r) = false := rfl

theorem jsTypeof_refV (r : Nat) : jsTypeof (.refV r) = "object" := rfl

theorem jsTypeof_fnV (f : Nat) : jsTypeof (.fnV f) = "function" := rfl

/-- The part_000 pipeline with an invoked constructor, for every shape of the
constructor's return value that yields an instance, mirroring the source's
normalization: an array of targets is used as is; a falsy return value means
no composition; a truthy non-array non-function value is wrapped into a
one-element sequence.  `ts` names the normalized target sequence. -/
theorem newP0_run_ctor
    (ftab : Nat → List JsVal → JsVal) (s0 : St) (bp : Blueprint) (args : List JsVal)
    (d0 : Obj) (f : Nat) (ts : List JsVal)
    (hbody : bp.body [] = .obj d0)
    (hctor : propLookup d0.props "ctor" = some (.dataP (.fnV f)))
    (hnorm : ftab f args = .arrV ts
      ∨ (truthy (ftab f args) = false ∧ ts = [])
      ∨ (truthy (ftab f args) = true ∧ isArrayV (ftab f args) = false
          ∧ (jsTypeof (ftab f args) == "function") = false ∧ ts = [ftab f args]))
    (hts : ∀ t ∈ ts, ∃ rt, t = .refV rt ∧ rt ≠ s0.next ∧ (s0.mem rt).props ≠ []) :
    ∃ s', NewP0 ftab s0 bp args = .ok (s', .refV s0.next) ∧
      (∀ k, getOwn (s'.mem s0.next) k
        = firstSome (getOwn (deleteProp d0 "ctor") k) (firstContrib s0 ts k)) ∧
      (∀ r, r ≠ s0.next → s'.mem r = s0.mem r) ∧
      (s'.mem s0.next).protoTag = some bp.id := by
  have hne : d0.props ≠ [] := propLookup_ne_nil_of_some _ _ _ hctor
  have hlen : ((d0.props.length) == 0) = false := by
    rw [beq_eq_false_iff_ne]
    simpa [List.length_eq_zero] using hne
  rcases hnorm with hcomp | ⟨hc, hts0⟩ | ⟨hc, hna, hnf, hone⟩
  · exact newP0_run_with_compose ftab s0 bp args d0 f ts hbody hctor hcomp hts
  · -- falsy return: the compose step is skipped
    subst hts0
    have hNew : NewP0 ftab s0 bp args
        = .ok (hwrite (hwrite ⟨s0.next + 1, fun r => if r = s0.next then d0 else s0.mem r⟩
              s0.next ⟨some bp.id, d0.props⟩)
            s0.next (deleteProp ⟨some bp.id, d0.props⟩ "ctor"), .refV s0.next) := by
      simp only [NewP0, runBody, hbody, alloc]
      simp +decide [invalidInterfaceChk, keysLen, hlen, setProto, readProp, getOwn,
        hwrite_mem_self, hctor, callFn, hc, truthy_refV, truthy_fnV, isArrayV_refV,
        jsTypeof_refV, jsTypeof_fnV]
    refine ⟨_, hNew, ?_, ?_, ?_⟩
    · intro k
      rw [hwrite_mem_self]
      have h2 : getOwn (deleteProp ⟨some bp.id, d0.props⟩ "ctor") k
          = getOwn (deleteProp d0 "ctor") k := by
        simp [deleteProp, getOwn]
      rw [h2]
      simp [firstContrib, firstSome_none_right]
    · intro r hrne
      rw [hwrite_mem_ne _ _ _ _ hrne, hwrite_mem_ne _ _ _ _ hrne]
      simp [hrne]
    · rw [hwrite_mem_self]
      simp [deleteProp]
  · -- single non-array target: wrapped into a one-element sequence
    subst hone
    have hNew : NewP0 ftab s0 bp args
        = (mergeTargetsP0 s0.next [ftab f args]
            (hwrite (hwrite ⟨s0.next + 1, fun r => if r = s0.next then d0 else s0.mem r⟩
                s0.next ⟨some bp.id, d0.props⟩)
              s0.next (deleteProp ⟨some bp.id, d0.props⟩ "ctor"))).map
            (fun s4 => (s4, JsVal.refV s0.next)) := by
      simp only [NewP0, runBody, hbody, alloc]
      simp +decide [invalidInterfaceChk, keysLen, hlen, setProto, readProp, getOwn,
        hwrite_mem_self, hctor, callFn, hc, hna, hnf, bne, truthy_refV, truthy_fnV,
        isArrayV_refV, jsTypeof_refV, jsTypeof_fnV]
    have hts3 : ∀ t ∈ [ftab f args], ∃ rt, t = .refV rt ∧ rt ≠ s0.next ∧
        (((hwrite (hwrite ⟨s0.next + 1, fun r => if r = s0.next then d0 else s0.mem r⟩
                s0.next ⟨some bp.id, d0.props⟩)
              s0.next (deleteProp ⟨some bp.id, d0.props⟩ "ctor")).mem rt)).props ≠ [] := by
      intro t ht
      rcases hts t ht with ⟨rt, hteq, hne', hp⟩
      refine ⟨rt, hteq, hne', ?_⟩
      rw [hwrite_mem_ne _ _ _ _ hne', hwrite_mem_ne _ _ _ _ hne']
      simpa [hne'] using hp
    rcases mergeTargetsP0_ok s0.next [ftab f args] _ hts3 with
      ⟨s4, hok, hchar, hframe, hproto, _⟩
    have hmem3 : ∀ r, r ≠ s0.next →
        ((hwrite (hwrite ⟨s0.next + 1, fun r => if r = s0.next then d0 else s0.mem r⟩
                s0.next ⟨some bp.id, d0.props⟩)
              s0.next (deleteProp ⟨some bp.id, d0.props⟩ "ctor")).mem r) = s0.mem r := by
      intro r hrne
      rw [hwrite_mem_ne _ _ _ _ hrne, hwrite_mem_ne _ _ _ _ hrne]
      simp [hrne]
    refine ⟨s4, ?_, ?_, ?_, ?_⟩
    · rw [hNew, hok]
      rfl
    · intro k
      rw [hchar k, hwrite_mem_self]
      have h2 : getOwn (deleteProp ⟨some bp.id, d0.props⟩ "ctor") k
          = getOwn (deleteProp d0 "ctor") k := by
        simp [deleteProp, getOwn]
      have h3 : firstContrib
          (hwrite (hwrite ⟨s0.next + 1, fun r => if r = s0.next then d0 else s0.mem r⟩
                s0.next ⟨some bp.id, d0.props⟩)
              s0.next (deleteProp ⟨some bp.id, d0.props⟩ "ctor")) [ftab f args] k
          = firstContrib s0 [ftab f args] k := by
        apply firstContrib_congr
        intro t ht
        rcases hts t ht with ⟨rt, hteq, hne', _⟩
        subst hteq
        simp only [ownPropsOfVal]
        rw [hmem3 rt hne']
      rw [h2, h3]
    · intro r hrne
      rw [hframe r hrne, hmem3 r hrne]
    · rw [hproto, hwrite_mem_self]
      simp [deleteProp]

/-- C1: for every blueprint whose constructor declaration (the reserved
`ctor` entry of the descriptor) returns the `false` sentinel when invoked by
`New(blueprint, ...args)` — the README boilerplate variant, where abort is
supported — the factory call returns the abort sentinel (`undefined`) and no
instance is produced. -/
theorem newRB_ctor_false_aborts
    (ftab : Nat → List JsVal → JsVal) (s0 : St) (bp : Blueprint) (args : List JsVal)
    (d0 : Obj) (f : Nat)
    (hbody : bp.body [] = .obj d0)
    (hctor : propLookup d0.props "ctor" = some (.dataP (.fnV f)))
    (habort : ftab f args = .boolV false) :
    ∃ s', NewRB ftab s0 bp args = .ok (s', .undefV) := by
  have hne : d0.props ≠ [] := propLookup_ne_nil_of_some _ _ _ hctor
  have hlen : ((d0.props.length) == 0) = false := by
    rw [beq_eq_false_iff_ne]
    simpa [List.length_eq_zero] using hne
  refine ⟨hwrite ⟨s0.next + 1, fun r => if r = s0.next then d0 else s0.mem r⟩
    s0.next ⟨some bp.id, d0.props⟩, ?_⟩
  simp only [NewRB, runBody, hbody, alloc]
  simp +decide [invalidInterfaceChk, truthy, jsTypeof, isArrayV, keysLen, hlen,
    setProto, readProp, getOwn, hwrite_mem_self, hctor, callFn, habort, strictEqFalse]

/-- Witness for C1: on the concrete abort blueprint, the factory yields the
abort sentinel. -/
theorem newRB_ctor_false_aborts_witness :
    ∃ s', NewRB ftabAbort st0 bpAbort [.numV 3] = .ok (s', .undefV) :=
  newRB_ctor_false_aborts ftabAbort st0 bpAbort [.numV 3]
    ⟨none, [("value", .dataP (.fnV 3)), ("ctor", .dataP (.fnV 7))]⟩ 7 rfl rfl rfl

/-- C3 amended: in the ctor-based variants (part_000, part_001, part_002 and
the README boilerplate, which share the `args.length>0 && !ctor` test), a
blueprint whose descriptor has no `ctor` entry fails with the MissingCtor
error condition when `New` is called with one or more arguments, and no
instance is returned; the composed-key variants (src/new.js lines 3-24,
part_003) have no ctor protocol — the arguments go to the blueprint
invocation itself and an instance is returned (see the counterexample). -/
theorem newP0_missing_ctor
    (ftab : Nat → List JsVal → JsVal) (s0 : St) (bp : Blueprint) (args : List JsVal)
    (d0 : Obj)
    (hbody : bp.body [] = .obj d0)
    (hne : d0.props ≠ [])
    (hctor : propLookup d0.props "ctor" = none)
    (hargs : args ≠ []) :
    NewP0 ftab s0 bp args = .error .missingCtor := by
  have hlen : ((d0.props.length) == 0) = false := by
    rw [beq_eq_false_iff_ne]
    simpa [List.length_eq_zero] using hne
  have hal : (args.length > 0) := List.length_pos.mpr hargs
  simp only [NewP0, runBody, hbody, alloc]
  simp +decide [invalidInterfaceChk, truthy, jsTypeof, isArrayV, keysLen, hlen,
    setProto, readProp, getOwn, hwrite_mem_self, hctor, decide_eq_true hal]

/-- Witness for C3: the concrete ctor-less blueprint called with one argument
fails with MissingCtor. -/
theorem newP0_missing_ctor_witness :
    NewP0 ftab0 st0 bpNoCtor [.numV 1] = .error .missingCtor :=
  newP0_missing_ctor ftab0 st0 bpNoCtor [.numV 1]
    ⟨none, [("m", .dataP (.fnV 1))]⟩ rfl (List.cons_ne_nil _ _) rfl (List.cons_ne_nil _ _)

/-- Counterexample to C3 as stated: the composed-key variant (src/new.js
lines 3-24, cited by the claim) has no ctor protocol and no MissingCtor
check — a blueprint whose descriptor has no `ctor` entry, called with one
argument, returns an instance (carrying the descriptor's method) instead of
failing. -/
theorem newNJ_no_missing_ctor :
    ∃ s', NewNJ ftab0 st0 bpNoCtorNJ [.numV 1] = .ok (s', .refV 0) ∧
      getOwn (s'.mem 0) "m" = some (.dataP (.fnV 1)) :=
  ⟨_, rfl, rfl⟩

/-- C8: for every well-formed blueprint whose descriptor contains no `ctor`
entry (and hence, in part_000, no composition declaration — composition data
only arises from a constructor's return value), calling `New(blueprint)` with
no arguments returns an instance whose set of own properties equals exactly
the descriptor's own properties. -/
theorem newP0_no_ctor_exact_props
    (ftab : Nat → List JsVal → JsVal) (s0 : St) (bp : Blueprint) (d0 : Obj)
    (hbody : bp.body [] = .obj d0)
    (hne : d0.props ≠ [])
    (hctor : propLookup d0.props "ctor" = none) :
    ∃ s', NewP0 ftab s0 bp [] = .ok (s', .refV s0.next) ∧
      (s'.mem s0.next).props = d0.props := by
  have hlen : ((d0.props.length) == 0) = false := by
    rw [beq_eq_false_iff_ne]
    simpa [List.length_eq_zero] using hne
  refine ⟨hwrite ⟨s0.next + 1, fun r => if r = s0.next then d0 else s0.mem r⟩
    s0.next ⟨some bp.id, d0.props⟩, ?_, ?_⟩
  · simp only [NewP0, runBody, hbody, alloc]
    simp +decide [invalidInterfaceChk, truthy, jsTypeof, isArrayV, keysLen, hlen,
      setProto, readProp, getOwn, hwrite_mem_self, hctor]
  · rw [hwrite_mem_self]

/-- C2: merging proceeds in sequence order and never overwrites a property
already present — for every key the instance resolves to the host
descriptor's own slot when it has one (host precedence), and otherwise to the
slot of the earliest composition target defining the key (earlier targets
beat later ones); getter/setter pairs are copied as accessor slots, not as
data values.  Stated over part_000, whose compose loop (shared with
`copyProps` of src/new.js) performs the merge. -/
theorem newP0_merge_first_writer_wins
    (ftab : Nat → List JsVal → JsVal) (s0 : St) (bp : Blueprint) (args : List JsVal)
    (d0 : Obj) (f : Nat) (ts : List JsVal)
    (hbody : bp.body [] = .obj d0)
    (hctor : propLookup d0.props "ctor" = some (.dataP (.fnV f)))
    (hcomp : ftab f args = .arrV ts)
    (hts : ∀ t ∈ ts, ∃ rt, t = .refV rt ∧ rt ≠ s0.next ∧ (s0.mem rt).props ≠ []) :
    ∃ s', NewP0 ftab s0 bp args = .ok (s', .refV s0.next) ∧
      (∀ k, getOwn (s'.mem s0.next) k
        = firstSome (getOwn (deleteProp d0 "ctor") k) (firstContrib s0 ts k)) ∧
      (∀ k d, getOwn (deleteProp d0 "ctor") k = some d →
        getOwn (s'.mem s0.next) k = some d) ∧
      (∀ k g sv, getOwn (deleteProp d0 "ctor") k = none →
        firstContrib s0 ts k = some (.accessorP g sv) →
        getOwn (s'.mem s0.next) k = some (.accessorP g sv)) := by
  rcases newP0_run_with_compose ftab s0 bp args d0 f ts hbody hctor hcomp hts with
    ⟨s', hok, hchar, _, _⟩
  refine ⟨s', hok, hchar, ?_, ?_⟩
  · intro k d hd
    rw [hchar k, hd]
    rfl
  · intro k g sv hn hc
    rw [hchar k, hn, hc]
    rfl

/-- Witness for C2: host `a` beats target 0's `a`; target 0's accessor `b`
beats target 1's data `b` and is copied as an accessor; target 1 contributes
`c`. -/
theorem newP0_merge_first_writer_wins_witness :
    ∃ s', NewP0 ftabMerge stMerge bpMerge [] = .ok (s', .refV stMerge.next) ∧
      getOwn (s'.mem stMerge.next) "a" = some (.dataP (.numV 1)) ∧
      getOwn (s'.mem stMerge.next) "b" = some (.accessorP (.fnV 8) .undefV) ∧
      getOwn (s'.mem stMerge.next) "c" = some (.dataP (.numV 30)) := by
  have hts : ∀ t ∈ [JsVal.refV 0, JsVal.refV 1], ∃ rt, t = JsVal.refV rt
      ∧ rt ≠ stMerge.next ∧ (stMerge.mem rt).props ≠ [] := by
    intro t ht
    simp only [List.mem_cons, List.not_mem_nil, or_false] at ht
    rcases ht with rfl | rfl
    · exact ⟨0, rfl, by decide, by simp [stMerge]⟩
    · exact ⟨1, rfl, by decide, by simp [stMerge]⟩
  rcases newP0_merge_first_writer_wins ftabMerge stMerge bpMerge []
      ⟨none, [("a", .dataP (.numV 1)), ("ctor", .dataP (.fnV 5))]⟩ 5 [.refV 0, .refV 1]
      rfl rfl rfl hts with ⟨s', hok, hchar, _, _⟩
  refine ⟨s', hok, ?_, ?_, ?_⟩
  · rw [hchar "a"]
    rfl
  · rw [hchar "b"]
    rfl
  · rw [hchar "c"]
    rfl

theorem runBody_ref_frame (s0 : St) (bp : Blueprint) (args : List JsVal) (hrv : Nat)
    (h : (runBody s0 bp args).2 = .refV hrv) :
    ∀ x, x ≠ hrv → ((runBody s0 bp args).1).mem x = s0.mem x := by
  intro x hx
  unfold runBody at h ⊢
  cases hb : bp.body args with
  | val v => rfl
  | obj o =>
      rw [hb] at h
      simp only [alloc] at h ⊢
      have : s0.next = hrv := by
        cases h
        rfl
      rw [this]
      simp [hx]

theorem mergeTargetsP0_frame (hr : Nat) (ts : List JsVal) :
    ∀ (s s' : St), mergeTargetsP0 hr ts s = .ok s' →
      ∀ r, r ≠ hr → s'.mem r = s.mem r := by
  induction ts with
  | nil =>
      intro s s' h r hrne
      cases h
      rfl
  | cons t rest ih =>
      intro s s' h r hrne
      by_cases hc : composeChkP0 s t = true
      · rw [mergeTargetsP0, if_pos hc] at h
        cases h
      · rw [mergeTargetsP0, if_neg hc] at h
        rw [ih _ _ h r hrne, copyPropsSt_mem_ne s hr t r hrne]

theorem mergeTargetsP0_error_shape (hr : Nat) (ts : List JsVal) :
    ∀ (s : St) (e : Err), mergeTargetsP0 hr ts s = .error e → e = .invalidComposition := by
  induction ts with
  | nil => intro s e h; cases h
  | cons t rest ih =>
      intro s e h
      by_cases hc : composeChkP0 s t = true
      · rw [mergeTargetsP0, if_pos hc] at h
        cases h
        rfl
      · rw [mergeTargetsP0, if_neg hc] at h
        exact ih _ _ h

theorem mergeTargetsP1_frame (hr : Nat) (ts : List JsVal) :
    ∀ (s s' : St), mergeTargetsP1 hr ts s = .ok s' →
      ∀ r, r ≠ hr → s'.mem r = s.mem r := by
  induction ts with
  | nil =>
      intro s s' h r hrne
      cases h
      rfl
  | cons t rest ih =>
      intro s s' h r hrne
      by_cases hc : (!isDict t) = true
      · rw [mergeTargetsP1, if_pos hc] at h
        cases h
      · rw [mergeTargetsP1, if_neg hc] at h
        rw [ih _ _ h r hrne, copyPropsSt_mem_ne s hr t r hrne]

theorem mergeTargetsP1_protoTag (hr : Nat) (ts : List JsVal) :
    ∀ (s s' : St), mergeTargetsP1 hr ts s = .ok s' →
      (s'.mem hr).protoTag = (s.mem hr).protoTag := by
  induction ts with
  | nil =>
      intro s s' h
      cases h
      rfl
  | cons t rest ih =>
      intro s s' h
      by_cases hc : (!isDict t) = true
      · rw [mergeTargetsP1, if_pos hc] at h
        cases h
      · rw [mergeTargetsP1, if_neg hc] at h
        rw [ih _ _ h, copyPropsSt_protoTag]

/-- C10: the merge step never mutates a composition target — a successful
part_000 factory call writes no heap reference other than the returned
header, so every own property of every pre-existing object (in particular of
each composition target, which is distinct from the header under
construction) is identical before and after the call. -/
theorem newP0_merge_frame
    (ftab : Nat → List JsVal → JsVal) (s0 : St) (bp : Blueprint) (args : List JsVal)
    (s' : St) (hr : Nat)
    (hok : NewP0 ftab s0 bp args = .ok (s', .refV hr)) :
    ∀ r, r ≠ hr → s'.mem r = s0.mem r := by
  intro r hrne
  rcases hrb : runBody s0 bp [] with ⟨s1, hv⟩
  simp only [NewP0, hrb] at hok
  by_cases hchk : invalidInterfaceChk s1 hv = true
  · rw [if_pos hchk] at hok
    cases hok
  · rw [if_neg hchk] at hok
    cases hv with
    | refV hrv =>
        dsimp only at hok
        have hs1 : ∀ x, x ≠ hrv → s1.mem x = s0.mem x := by
          intro x hx
          have h2 := runBody_ref_frame s0 bp [] hrv (by rw [hrb]) x hx
          rw [hrb] at h2
          exact h2
        by_cases hA : (truthy (readProp ftab ((setProto s1 (.refV hrv) bp.id).mem hrv) "ctor")
            && (jsTypeof (readProp ftab ((setProto s1 (.refV hrv) bp.id).mem hrv) "ctor") != "function")) = true
        · rw [if_pos hA] at hok
          cases hok
        · rw [if_neg hA] at hok
          by_cases hB : (args.length > 0
              && !truthy (readProp ftab ((setProto s1 (.refV hrv) bp.id).mem hrv) "ctor")) = true
          · rw [if_pos hB] at hok
            cases hok
          · rw [if_neg hB] at hok
            have hs2 : ∀ x, x ≠ hrv →
                ((setProto s1 (.refV hrv) bp.id).mem x) = s0.mem x := by
              intro x hx
              simp only [setProto]
              rw [hwrite_mem_ne _ _ _ _ hx, hs1 x hx]
            by_cases hct : truthy (readProp ftab ((setProto s1 (.refV hrv) bp.id).mem hrv) "ctor") = true
            · simp only [hct, if_true] at hok
              by_cases hcc : truthy (callFn ftab
                  (readProp ftab ((setProto s1 (.refV hrv) bp.id).mem hrv) "ctor") args) = true
              · simp only [hcc, if_true] at hok
                split at hok
                · rename_i ts heq
                  cases hmg : mergeTargetsP0 hrv ts
                      (hwrite (setProto s1 (.refV hrv) bp.id) hrv
                        (deleteProp ((setProto s1 (.refV hrv) bp.id).mem hrv) "ctor")) with
                  | error e => rw [hmg] at hok; simp [Except.map] at hok
                  | ok s4 =>
                      rw [hmg] at hok
                      simp only [Except.map, Except.ok.injEq, Prod.mk.injEq,
                        JsVal.refV.injEq] at hok
                      obtain ⟨hs4, hhr⟩ := hok
                      subst hs4
                      subst hhr
                      rw [mergeTargetsP0_frame _ _ _ _ hmg r hrne,
                        hwrite_mem_ne _ _ _ _ hrne, hs2 r hrne]
                · simp at hok
              · simp only [hcc, if_false] at hok
                simp only [Bool.false_eq_true, if_false] at hok
                simp only [Except.ok.injEq, Prod.mk.injEq, JsVal.refV.injEq] at hok
                obtain ⟨hs4, hhr⟩ := hok
                subst hs4
                subst hhr
                rw [hwrite_mem_ne _ _ _ _ hrne, hs2 r hrne]
            · rw [Bool.not_eq_true] at hct
              simp only [hct] at hok
              simp only [Bool.false_eq_true, if_false] at hok
              simp only [truthy] at hok
              simp only [Bool.false_eq_true, if_false] at hok
              simp only [Except.ok.injEq, Prod.mk.injEq, JsVal.refV.injEq] at hok
              obtain ⟨hs4, hhr⟩ := hok
              subst hs4
              subst hhr
              exact hs2 r hrne
    | undefV => simp at hok
    | nullV => simp at hok
    | boolV b => simp at hok
    | numV n => simp at hok
    | strV s => simp at hok
    | arrV l => simp at hok
    | dateV => simp at hok
    | fnV f => simp at hok

/-- Witness for C10: merging the pre-existing target (ref 0) leaves that
target's object identical in the final heap. -/
theorem newP0_merge_frame_witness :
    ∃ s', NewP0 ftabFrame stFrame bpFrame [] = .ok (s', .refV 1) ∧
      s'.mem 0 = stFrame.mem 0 := by
  refine ⟨_, rfl, ?_⟩
  exact newP0_merge_frame ftabFrame stFrame bpFrame [] _ 1 rfl 0 (by decide)

theorem firstContrib_none_of_targets (s : St) (k : String) :
    ∀ (ts : List JsVal),
      (∀ t ∈ ts, ∃ rt, t = .refV rt ∧ propLookup (s.mem rt).props k = none) →
      firstContrib s ts k = none := by
  intro ts
  induction ts with
  | nil => intro _; rfl
  | cons t rest ih =>
      intro h
      rcases h t (List.mem_cons_self t rest) with ⟨rt, rfl, hn⟩
      unfold firstContrib
      rw [ih (fun t' ht' => h t' (List.mem_cons_of_mem _ ht'))]
      simp [ownPropsOfVal, hn, firstSome]

/-- Counterexample to C5 as stated: in part_000 (and part_001/002) the
`delete header.ctor` is guarded by `if (ctor)`, so a falsy non-callable
`ctor` entry is never removed and leaks onto the returned instance. -/
theorem newP0_falsy_ctor_leaks :
    ∃ s', NewP0 ftab0 st0 bpFalsyCtor [] = .ok (s', .refV 0) ∧
      getOwn (s'.mem 0) "ctor" = some (.dataP (.boolV false)) :=
  ⟨_, rfl, rfl⟩

/-- C5 amended: in part_000, when the descriptor's `ctor` entry is a callable
(truthy) value — so the constructor is actually invoked — and no normalized
composition target carries an own `ctor` property, the returned instance has
no own `ctor`; this covers every shape of the constructor's return value
that yields an instance: an array of targets, a falsy value such as
`undefined` (no composition at all), or a single truthy non-array
non-function target (wrapped into a one-element sequence).  The README
boilerplate variant even deletes `ctor` unconditionally.  But a
falsy-but-present `ctor` value survives onto the instance (see the
counterexample), and a composition target with an own `ctor` can reintroduce
the key. -/
theorem newP0_ctor_stripped_when_invoked
    (ftab : Nat → List JsVal → JsVal) (s0 : St) (bp : Blueprint) (args : List JsVal)
    (d0 : Obj) (f : Nat) (ts : List JsVal)
    (hbody : bp.body [] = .obj d0)
    (hctor : propLookup d0.props "ctor" = some (.dataP (.fnV f)))
    (hnorm : ftab f args = .arrV ts
      ∨ (truthy (ftab f args) = false ∧ ts = [])
      ∨ (truthy (ftab f args) = true ∧ isArrayV (ftab f args) = false
          ∧ (jsTypeof (ftab f args) == "function") = false ∧ ts = [ftab f args]))
    (hts : ∀ t ∈ ts, ∃ rt, t = .refV rt ∧ rt ≠ s0.next ∧ (s0.mem rt).props ≠ []
      ∧ propLookup (s0.mem rt).props "ctor" = none) :
    ∃ s', NewP0 ftab s0 bp args = .ok (s', .refV s0.next) ∧
      getOwn (s'.mem s0.next) "ctor" = none := by
  have hts' : ∀ t ∈ ts, ∃ rt, t = .refV rt ∧ rt ≠ s0.next ∧ (s0.mem rt).props ≠ [] := by
    intro t ht
    rcases hts t ht with ⟨rt, h1, h2, h3, _⟩
    exact ⟨rt, h1, h2, h3⟩
  rcases newP0_run_ctor ftab s0 bp args d0 f ts hbody hctor hnorm hts' with
    ⟨s', hok, hchar, _, _⟩
  refine ⟨s', hok, ?_⟩
  rw [hchar "ctor", getOwn_deleteProp_self]
  rw [firstContrib_none_of_targets s0 "ctor" ts (by
    intro t ht
    rcases hts t ht with ⟨rt, h1, _, _, h4⟩
    exact ⟨rt, h1, h4⟩)]
  rfl

/-- Witness for the amended C5: an invoked constructor returning a single
non-array clean target (exercising the wrap path) yields an instance without
an own `ctor`. -/
theorem newP0_ctor_stripped_when_invoked_witness :
    ∃ s', NewP0 ftabStrip stStrip bpStrip [] = .ok (s', .refV stStrip.next) ∧
      getOwn (s'.mem stStrip.next) "ctor" = none := by
  apply newP0_ctor_stripped_when_invoked ftabStrip stStrip bpStrip []
    ⟨none, [("m", .dataP (.fnV 1)), ("ctor", .dataP (.fnV 4))]⟩ 4 [.refV 0] rfl rfl
    (Or.inr (Or.inr ⟨rfl, rfl, rfl, rfl⟩))
  intro t ht
  simp only [List.mem_cons, List.not_mem_nil, or_false] at ht
  subst ht
  exact ⟨0, rfl, by decide, by simp [stStrip], rfl⟩

/-- Counterexample to C4 as stated: part_001's `isDict` accepts an empty
object, so a blueprint whose descriptor violates the "at least one entry"
part of the shape raises no InvalidInterface error — `New` returns an
(empty) instance. -/
theorem newP1_empty_interface_accepted :
    specValidDescriptor (runBody st0 bpEmptyDict []).1 (runBody st0 bpEmptyDict []).2
        = false ∧
      ∃ s', NewP1 ftab0 st0 bpEmptyDict [] = .ok (s', .refV 0) :=
  ⟨rfl, ⟨_, rfl⟩⟩

theorem mapMerge_ne_invalidInterface (hrv : Nat) (ts : List JsVal) (s : St) :
    Except.map (fun s4 => (s4, JsVal.refV hrv)) (mergeTargetsP0 hrv ts s)
      ≠ Except.error Err.invalidInterface := by
  cases hmg : mergeTargetsP0 hrv ts s with
  | error e =>
      have he := mergeTargetsP0_error_shape _ _ _ _ hmg
      subst he
      simp [Except.map]
  | ok s4 => simp [Except.map]

/-- C4 amended: in the variants with the full check (part_000, part_002 and
the README boilerplate share the same test), `New` fails with
InvalidInterface exactly when the blueprint's invocation result violates the
spec's Descriptor shape (non-null, non-array, non-callable mapping with at
least one entry); part_001's `isDict` instead accepts an empty mapping. -/
theorem newP0_invalid_interface_iff
    (ftab : Nat → List JsVal → JsVal) (s0 : St) (bp : Blueprint) (args : List JsVal) :
    (NewP0 ftab s0 bp args = .error .invalidInterface) ↔
      specValidDescriptor (runBody s0 bp []).1 (runBody s0 bp []).2 = false := by
  rcases hrb : runBody s0 bp [] with ⟨s1, hv⟩
  have hchk : invalidInterfaceChk s1 hv = !specValidDescriptor s1 hv := by
    cases hv <;> simp +decide [invalidInterfaceChk, specValidDescriptor, truthy,
      jsTypeof, isArrayV, keysLen, bne]
  dsimp only
  by_cases hs : specValidDescriptor s1 hv = true
  · have hcf : invalidInterfaceChk s1 hv = false := by
      rw [hchk, hs]
      rfl
    constructor
    · intro hEq
      exfalso
      cases hv with
      | refV hrv =>
          simp only [NewP0, hrb] at hEq
          rw [if_neg (by simp [hcf])] at hEq
          split at hEq
          · simp at hEq
          · split at hEq
            · simp at hEq
            · split at hEq
              · split at hEq
                · split at hEq
                  · exact mapMerge_ne_invalidInterface _ _ _ hEq
                  · simp at hEq
                · simp at hEq
              · simp [truthy] at hEq
      | undefV => simp [specValidDescriptor] at hs
      | nullV => simp [specValidDescriptor] at hs
      | boolV b => simp [specValidDescriptor] at hs
      | numV n => simp [specValidDescriptor] at hs
      | strV s => simp [specValidDescriptor] at hs
      | arrV l => simp [specValidDescriptor] at hs
      | dateV => simp [specValidDescriptor] at hs
      | fnV f => simp [specValidDescriptor] at hs
    · intro h
      rw [hs] at h
      cases h
  · have hst : specValidDescriptor s1 hv = false := by
      cases hres : specValidDescriptor s1 hv with
      | false => rfl
      | true => exact absurd hres hs
    have hct : invalidInterfaceChk s1 hv = true := by
      rw [hchk, hst]
      rfl
    rw [hst]
    simp only [eq_self_iff_true, iff_true]
    simp only [NewP0, hrb]
    rw [if_pos hct]

/-- Witness for the amended C4: a blueprint returning a bare number fails
with InvalidInterface in part_000. -/
theorem newP0_invalid_interface_iff_witness :
    NewP0 ftab0 st0 bpNumRet [] = .error .invalidInterface :=
  (newP0_invalid_interface_iff ftab0 st0 bpNumRet []).mpr rfl

theorem mapMergeP1_ok (hrv : Nat) (ts : List JsVal) (s : St) (s' : St) (v : JsVal)
    (h : Except.map (fun s4 => (s4, JsVal.refV hrv)) (mergeTargetsP1 hrv ts s)
      = .ok (s', v)) :
    v = .refV hrv ∧ (s'.mem hrv).protoTag = (s.mem hrv).protoTag := by
  cases hmg : mergeTargetsP1 hrv ts s with
  | error e =>
      rw [hmg] at h
      simp [Except.map] at h
  | ok s4 =>
      rw [hmg] at h
      simp only [Except.map, Except.ok.injEq, Prod.mk.injEq] at h
      obtain ⟨hs4, hveq⟩ := h
      subst hs4
      exact ⟨hveq.symm, mergeTargetsP1_protoTag _ _ _ _ hmg⟩

/-- A successful part_001 factory call always returns an object reference
whose prototype tag is the host blueprint's. -/
theorem newP1_ok_shape
    (ftab : Nat → List JsVal → JsVal) (s0 : St) (bp : Blueprint) (args : List JsVal)
    (s' : St) (v : JsVal)
    (hok : NewP1 ftab s0 bp args = .ok (s', v)) :
    ∃ hrv, v = .refV hrv ∧ (s'.mem hrv).protoTag = some bp.id := by
  rcases hrb : runBody s0 bp [] with ⟨s1, hv⟩
  simp only [NewP1, hrb] at hok
  by_cases hd : (!isDict hv) = true
  · rw [if_pos hd] at hok
    cases hok
  · rw [if_neg hd] at hok
    cases hv with
    | refV hrv =>
        dsimp only at hok
        have hproto2 : ((setProto s1 (.refV hrv) bp.id).mem hrv).protoTag = some bp.id := by
          simp [setProto]
        refine ⟨hrv, ?_⟩
        split at hok
        · cases hok
        · split at hok
          · cases hok
          · split at hok
            · -- constructor invoked
              split at hok
              · -- composed truthy
                split at hok
                · -- an array of targets: merged
                  rcases mapMergeP1_ok _ _ _ _ _ hok with ⟨hveq, hpt⟩
                  refine ⟨hveq, ?_⟩
                  rw [hpt, hwrite_mem_self, protoTag_deleteProp, hproto2]
                · cases hok
              · -- composed falsy
                simp only [Except.ok.injEq, Prod.mk.injEq] at hok
                obtain ⟨hs4, hveq⟩ := hok
                subst hs4
                refine ⟨hveq.symm, ?_⟩
                rw [hwrite_mem_self, protoTag_deleteProp, hproto2]
            · -- no constructor
              simp only [truthy] at hok
              simp only [Bool.false_eq_true, if_false] at hok
              simp only [Except.ok.injEq, Prod.mk.injEq] at hok
              obtain ⟨hs4, hveq⟩ := hok
              subst hs4
              exact ⟨hveq.symm, hproto2⟩
    | undefV => simp [isDict, isUndefV, isNullV, jsTypeof, isArrayV, ctorIsDateV] at hd
    | nullV => simp [isDict, isUndefV, isNullV, jsTypeof, isArrayV, ctorIsDateV] at hd
    | boolV b => simp [isDict, isUndefV, isNullV, jsTypeof, isArrayV, ctorIsDateV] at hd
    | numV n => simp [isDict, isUndefV, isNullV, jsTypeof, isArrayV, ctorIsDateV] at hd
    | strV s => simp [isDict, isUndefV, isNullV, jsTypeof, isArrayV, ctorIsDateV] at hd
    | arrV l => simp [isDict, isUndefV, isNullV, jsTypeof, isArrayV, ctorIsDateV] at hd
    | dateV => simp [isDict, isUndefV, isNullV, jsTypeof, isArrayV, ctorIsDateV] at hd
    | fnV f => simp [isDict, isUndefV, isNullV, jsTypeof, isArrayV, ctorIsDateV] at hd

/-- C6: every instance returned by `New(B, ...)` satisfies the type-check
predicate for blueprint `B`, and fails it for every unrelated blueprint
(distinct identity, not related by composition — composition never touches
the prototype).  Stated over part_001, whose `setPrototypeOf` establishes the
tag. -/
theorem newP1_instance_tag
    (ftab : Nat → List JsVal → JsVal) (s0 : St) (bp : Blueprint) (args : List JsVal)
    (s' : St) (v : JsVal)
    (hok : NewP1 ftab s0 bp args = .ok (s', v)) :
    isInstanceOfTag s' v bp.id = true ∧
      ∀ cid, cid ≠ bp.id → isInstanceOfTag s' v cid = false := by
  rcases newP1_ok_shape ftab s0 bp args s' v hok with ⟨hrv, rfl, hpt⟩
  constructor
  · simp [isInstanceOfTag, hpt]
  · intro cid hcid
    simp only [isInstanceOfTag, hpt]
    simp only [Option.some.injEq]
    exact decide_eq_false (fun h => hcid h.symm)

/-- Witness for C6: an instance of the concrete blueprint (identity 11)
passes its own type check and fails an unrelated one (identity 12). -/
theorem newP1_instance_tag_witness :
    ∃ s' v, NewP1 ftab0 st0 bpTag [] = .ok (s', v) ∧
      isInstanceOfTag s' v bpTag.id = true ∧ isInstanceOfTag s' v 12 = false := by
  refine ⟨_, _, rfl, ?_, ?_⟩
  · exact (newP1_instance_tag ftab0 st0 bpTag [] _ _ rfl).1
  · exact (newP1_instance_tag ftab0 st0 bpTag [] _ _ rfl).2 12 (by decide)

/-- C7 amended: in the ctor-based variants the blueprint is invoked with no
arguments — part_000's factory result depends on the blueprint only through
its identity and its no-argument invocation, the factory's arguments being
routed only to the `ctor` — whereas in the composed-key variants (src/new.js
top, src/unnamed/part_003) the factory's arguments are passed to the
blueprint invocation itself (see the counterexample). -/
theorem newP0_blueprint_invoked_without_args
    (ftab : Nat → List JsVal → JsVal) (s0 : St) (bp1 bp2 : Blueprint) (args : List JsVal)
    (hid : bp1.id = bp2.id) (hbody : bp1.body [] = bp2.body []) :
    NewP0 ftab s0 bp1 args = NewP0 ftab s0 bp2 args := by
  simp only [NewP0, runBody, hbody, hid]

/-- Witness for the amended C7: two blueprints with equal no-argument
invocations but different behaviour on arguments are indistinguishable to
part_000's factory. -/
theorem newP0_blueprint_invoked_without_args_witness :
    NewP0 ftab0 st0 bpRouteA [.numV 9] = NewP0 ftab0 st0 bpRouteB [.numV 9] :=
  newP0_blueprint_invoked_without_args ftab0 st0 bpRouteA bpRouteB [.numV 9] rfl rfl

/-- Counterexample to C7 as stated: the composed-key variant invokes the
blueprint with the factory's arguments (`this.call(header, ...args)`) — two
blueprints agreeing on their no-argument invocation produce observably
different instances once an argument is supplied. -/
theorem newNJ_blueprint_receives_args :
    bpArgsA.body [] = bpArgsB.body [] ∧
    resultOwnNum (NewNJ ftab0 st0 bpArgsA [.numV 9]) "a" = some 1 ∧
    resultOwnNum (NewNJ ftab0 st0 bpArgsB [.numV 9]) "a" = some 0 ∧
    resultOwnNum (NewNJ ftab0 st0 bpArgsA [.numV 9]) "a"
      ≠ resultOwnNum (NewNJ ftab0 st0 bpArgsB [.numV 9]) "a" := by
  refine ⟨rfl, rfl, rfl, ?_⟩
  intro h
  rw [show resultOwnNum (NewNJ ftab0 st0 bpArgsA [.numV 9]) "a" = some 1 from rfl,
    show resultOwnNum (NewNJ ftab0 st0 bpArgsB [.numV 9]) "a" = some 0 from rfl] at h
  simp at h

theorem mapMergeNJ_ok (hr : Nat) (ts : List JsVal) (s : St) (s' : St) (v : JsVal)
    (h : Except.map
        (fun s5 => (hwrite s5 hr (deleteProp (s5.mem hr) "composed"), JsVal.refV hr))
        (mergeTargetsNJ hr ts s) = .ok (s', v)) :
    v = .refV hr ∧ getOwn (s'.mem hr) "composed" = none := by
  cases hmg : mergeTargetsNJ hr ts s with
  | error e =>
      rw [hmg] at h
      simp [Except.map] at h
  | ok s5 =>
      rw [hmg] at h
      simp only [Except.map, Except.ok.injEq, Prod.mk.injEq] at h
      obtain ⟨hs5, hveq⟩ := h
      refine ⟨hveq.symm, ?_⟩
      rw [← hs5, hwrite_mem_self, getOwn_deleteProp_self]

/-- C9: in the composed-key variants, whenever the descriptor's `composed`
value reads truthy, the instance returned by `New` has no own `composed`
property — the declaration is consumed and deleted after merging (it cannot
be re-added by a target, since the key is still an own property while targets
are merged). -/
theorem newNJ_composed_consumed
    (ftab : Nat → List JsVal → JsVal) (s0 : St) (bp : Blueprint) (args : List JsVal)
    (s' : St) (v : JsVal)
    (hok : NewNJ ftab s0 bp args = .ok (s', v))
    (htruthy : truthy (readProp ftab
        ((njAfterCopy s0 bp args).1.mem (njAfterCopy s0 bp args).2) "composed") = true) :
    ∃ hr, v = .refV hr ∧ getOwn (s'.mem hr) "composed" = none := by
  simp only [NewNJ] at hok
  by_cases hnil : (isUndefV (njSetup s0 bp args).2.2
      || isNullV (njSetup s0 bp args).2.2) = true
  · rw [if_pos hnil] at hok
    cases hok
  · rw [if_neg hnil] at hok
    rw [if_pos htruthy] at hok
    split at hok
    · rcases mapMergeNJ_ok _ _ _ _ _ hok with ⟨hveq, hnone⟩
      exact ⟨(njAfterCopy s0 bp args).2, hveq, hnone⟩
    · cases hok

/-- Witness for C9: the concrete composed-key blueprint yields an instance
without an own `composed` property. -/
theorem newNJ_composed_consumed_witness :
    ∃ s' v, NewNJ ftab0 stComposed bpComposed [] = .ok (s', v) ∧
      ∃ hr, v = .refV hr ∧ getOwn (s'.mem hr) "composed" = none := by
  refine ⟨_, _, rfl, ?_⟩
  exact newNJ_composed_consumed ftab0 stComposed bpComposed [] _ _ rfl rfl

/-- Witness for C8: the two-method blueprint yields an instance with exactly
those two own properties. -/
theorem newP0_no_ctor_exact_props_witness :
    ∃ s', NewP0 ftab0 st0 bpPlain [] = .ok (s', .refV st0.next) ∧
      (s'.mem st0.next).props
        = [("advance", .dataP (.fnV 1)), ("value", .dataP (.fnV 2))] :=
  newP0_no_ctor_exact_props ftab0 st0 bpPlain
    ⟨none, [("advance", .dataP (.fnV 1)), ("value", .dataP (.fnV 2))]⟩
    rfl (List.cons_ne_nil _ _) rfl

end NewJs
